import Mathlib

/-!
Verification of the INSECA credential store, integrity chain and unlock flow
(src/lib/Live.py) and of the privdata sealing step of the image builder
(src/lib/LiveBuilder.py), as a shallow embedding in Lean 4.

Cryptographic primitives (CryptoPass, CryptoGen, CryptoX509), the Device
abstraction and the FingerprintHash helpers are not part of the sources under
verification; they are kept abstract as function parameters, so every theorem
holds for an arbitrary choice of these collaborators.
-/

namespace Inseca

/-! ### Credential store (blob0.json) -/

/-- One slot of `blob0.json`: `{mode, salt, enc-blob, cn}` keyed by a user
uuid. The `salt` key is optional because devices created before password
hardening with salt have no `salt` entry in their slots. -/
structure Slot where
  mode : String
  salt : Option String
  encBlob : String
  cn : String
deriving Repr, DecidableEq

/-- The `blob0.json` mapping `user_uuid → Slot`, modelled as an association
list in insertion order (Python dicts iterate in insertion order). -/
abbrev Store := List (String × Slot)

/-- Abstract cryptographic primitives of CryptoPass (outside the verified
sources). `harden` models `harden_password_for_blob0(password, salt)`;
`encrypt key plain` models `CryptoPassword(key).encrypt(plain)`;
`decrypt key cipher = some plain` models a successful
`CryptoPassword(key).decrypt(cipher)` and `none` the exception raised on a
wrong key or MAC mismatch. -/
structure Crypto where
  harden : String → String → String
  encrypt : String → String → String
  decrypt : String → String → Option String

/-- Sentinel salt used by Live.py for devices created before password
hardening with salt ("not really some salt"). -/
def legacySalt : String := "not really some salt"

/-- Inner loop of `declare_user` (Live.py:1205-1214): walk the slots in order
and overwrite the `enc-blob` and `salt` of the first slot whose `cn` matches
`name` and whose `mode` is `"password"`; `none` when no slot matches (the
Python `done` flag stays `False`). -/
def declareOverwrite (newSalt newEnc name : String) : Store → Option Store
  | [] => none
  | (u, s) :: rest =>
    if s.cn == name && s.mode == "password" then
      some ((u, { s with salt := some newSalt, encBlob := newEnc }) :: rest)
    else
      (declareOverwrite newSalt newEnc name rest).map (fun r => (u, s) :: r)

/-- Model of `declare_user(dummy_mountpoint, name, user_password, blob0)`
(Live.py:1199-1228). `store = none` models a missing `blob0.json` file;
`freshSalt` and `freshUuid` model the values drawn from
`cpass.generate_salt()` and `uuid.uuid4()` during the call. Returns the store
written back to `blob0.json`. -/
def declare_user (c : Crypto) (freshSalt freshUuid : String)
    (store : Option Store) (name password blob0 : String) : Store :=
  let newEnc := c.encrypt (c.harden password freshSalt) blob0
  match store with
  | none => [(freshUuid, ⟨"password", some freshSalt, newEnc, name⟩)]
  | some users =>
    match declareOverwrite freshSalt newEnc name users with
    | some users2 => users2
    | none => users ++ [(freshUuid, ⟨"password", some freshSalt, newEnc, name⟩)]

/-- Model of `delete_user(dummy_mountpoint, name, internal_mountpoint)`
(Live.py:1244-1268). A missing `blob0.json` raises; a store holding exactly
one slot raises (this check happens before any name matching); otherwise
every slot whose `cn` equals `name` is removed and the remaining store is
written back, whatever its size. The opportunistic removal of
`internal_mountpoint/user-config/<uuid>` is best-effort filesystem work that
does not affect the store and is not modelled. -/
def delete_user (store : Option Store) (name : String) : Except String Store :=
  match store with
  | none => .error "Device has not yet been initialized"
  | some users =>
    if users.length = 1 then
      .error "Can't remove user when there is only one"
    else
      .ok (users.filter (fun p => p.2.cn != name))

/-- One slot's decryption attempt, shared by `change_user_password`
(Live.py:1283-1296) and `BootProcessWKS._unlock_blob0` (Live.py:255-265):
first the hardened path with the stored salt (or the legacy sentinel when the
slot has no `salt` key), then on failure the legacy plain-password path. -/
def tryDecryptSlot (c : Crypto) (current : String) (s : Slot) : Option String :=
  match c.decrypt (c.harden current (s.salt.getD legacySalt)) s.encBlob with
  | some b => some b
  | none => c.decrypt current s.encBlob

/-- Slot scan of `change_user_password` (Live.py:1281-1299): the first slot,
in store order, whose enc-blob decrypts under the current password, together
with the decrypted blob0. Python's `if blob0:` also treats an empty decrypted
blob as a failure, so an empty plaintext does not stop the scan. -/
def firstDecryptable (c : Crypto) (current : String) : Store → Option (Slot × String)
  | [] => none
  | (_, s) :: rest =>
    match tryDecryptSlot c current s with
    | some b => if b ≠ "" then some (s, b) else firstDecryptable c current rest
    | none => firstDecryptable c current rest

/-- Model of `change_user_password(dummy_mountpoint, current_password,
new_password)` (Live.py:1270-1300). Returns the store written back (`.ok`
carries the resulting `blob0.json` state, unchanged when nothing is written).
The equal-passwords shortcut at Live.py:1272-1273 returns before `blob0.json`
is even checked for existence. -/
def change_user_password (c : Crypto) (freshSalt freshUuid : String)
    (store : Option Store) (current new : String) : Except String (Option Store) :=
  if current = new then .ok store
  else match store with
  | none => .error "Device has not yet been initialized"
  | some users =>
    match firstDecryptable c current users with
    | some (s, b) =>
        .ok (some (declare_user c freshSalt freshUuid (some users) s.cn new b))
    | none => .error "Invalid password"

/-! ### Unlock flow (BootProcessWKS) -/

/-- Partition role identifiers of Live.py:43-47. -/
def partid_dummy : String := "dummy"

/-- Partition role identifier of the EFI partition. -/
def partid_efi : String := "EFI"

/-- Slot scan of `BootProcessWKS._unlock_blob0` (Live.py:252-275): the first
slot, in store order, whose enc-blob decrypts under the user password
(hardened path first, then the legacy plain path), with its uuid key and the
decrypted blob0. Unlike `change_user_password` there is no emptiness test on
the plaintext: any successful decryption stops the scan. -/
def unlockScan (c : Crypto) (pw : String) : Store → Option (String × Slot × String)
  | [] => none
  | (u, s) :: rest =>
    match tryDecryptSlot c pw s with
    | some b => some (u, s, b)
    | none => unlockScan c pw rest

/-- Outcome of `_unlock_blob0`: the returned blob0 or the raised
InvalidCredentialException message, the set of partitions mounted when the
call returns, and the uuid written to `/run/INSECA/user_uuid` (if any). -/
structure UnlockBlob0Result where
  result : Except String String
  mounted : List String
  runUserUuid : Option String
deriving Repr

/-- Model of `BootProcessWKS._unlock_blob0(user_password)` (Live.py:245-277):
mount `dummy`, read `blob0.json`, scan the slots; on the first successful
decryption record the uuid and return blob0 with `dummy` still mounted; on
exhaustion unmount `dummy` and raise InvalidCredentialException. No other
partition is touched. `mounted0` is the set of partitions mounted on entry. -/
def unlock_blob0 (c : Crypto) (users : Store) (pw : String)
    (mounted0 : List String) : UnlockBlob0Result :=
  let mounted1 := if partid_dummy ∈ mounted0 then mounted0 else mounted0 ++ [partid_dummy]
  match unlockScan c pw users with
  | some (u, _, b) => ⟨.ok b, mounted1, some u⟩
  | none => ⟨.error "Invalid password", mounted1.filter (fun p => p != partid_dummy), none⟩

/-- Error classification of `BootProcessWKS.unlock` (Live.py:333-413). The
`verifyFailed` case re-raises the device-verification exception verbatim
(Live.py:349-351), `invalidCredential` is the InvalidCredentialException from
`_unlock_blob0`, and `deviceIntegrity` is the DeviceIntegrityException built
at Live.py:375. -/
inductive UnlockError
  | alreadyUnlocked (msg : String)
  | verifyFailed (msg : String)
  | invalidCredential (msg : String)
  | deviceIntegrity (msg : String)
deriving Repr, DecidableEq

/-- Outcomes of the fallible collaborator operations performed by `unlock`
after authentication, each field modelling one call with the underlying error
message it would raise. `auth` is the outcome of `_unlock_blob0`
(`none` = no slot decrypts). -/
structure UnlockWorld where
  alreadyUnlocked : Bool
  verify : Except String Unit
  auth : Option (String × String)
  blob1Decrypt : Except String String
  chunksDecrypt : Except String String
  liveVerify : Except String String
  fingerprint : Except String String
  internalPassLoad : Except String String
  internalPassDecrypt : Except String String
  setInternalSecret : Except String Unit
  mountInternal : Except String Unit
  dataPassLoad : Except String String
  dataPassDecrypt : Except String String
  setDataSecret : Except String Unit
  mountData : Except String Unit

/-- Model of `BootProcessWKS._unblock_with_blob0` (Live.py:279-324): each
step's failure is wrapped into the fixed message of the corresponding
`raise Exception(...)`; on success the decrypted internal-partition password
is returned. -/
def unblock_with_blob0 (w : UnlockWorld) : Except String String :=
  match w.blob1Decrypt with
  | .error _ => .error "Could not load 'blob1.priv.enc' or decrypt blob1 from blob0"
  | .ok _ =>
  match w.chunksDecrypt with
  | .error _ => .error "Could not load 'chunks.enc' or decrypt chuks from blob1"
  | .ok _ =>
  match w.liveVerify with
  | .error m => .error ("Could not verify files in the live partition (" ++ m ++ ")")
  | .ok _ =>
  match w.fingerprint with
  | .error m => .error ("Could not compute the integrity fingerprint (" ++ m ++ ")")
  | .ok _ =>
  match w.internalPassLoad with
  | .error m => .error ("Could not load the 'internal-pass.enc' file: " ++ m)
  | .ok _ =>
  match w.internalPassDecrypt with
  | .error _ => .error "Could not decrypt the 'internal-pass.enc' file from the integrity hash"
  | .ok p => .ok p

/-- Body of the try block of `unlock` spanning Live.py:356-372: the integrity
chain, then unlocking and mounting `internal`, then reading and decrypting
`/internal/credentials/data-pass.enc`, then unlocking and mounting `data`.
Returns the (internal password, data password) pair, or the underlying error
message of the first failing operation. -/
def unlock_post_auth (w : UnlockWorld) : Except String (String × String) :=
  match unblock_with_blob0 w with
  | .error m => .error m
  | .ok ip =>
  match w.setInternalSecret with
  | .error m => .error m
  | .ok _ =>
  match w.mountInternal with
  | .error m => .error m
  | .ok _ =>
  match w.dataPassLoad with
  | .error m => .error m
  | .ok _ =>
  match w.dataPassDecrypt with
  | .error m => .error m
  | .ok dp =>
  match w.setDataSecret with
  | .error m => .error m
  | .ok _ =>
  match w.mountData with
  | .error m => .error m
  | .ok _ => .ok (ip, dp)

/-- Model of `BootProcessWKS.unlock(user_password)` (Live.py:333-377) up to
the mount of `data`: the already-unlocked guard, the device verification
(whose exception is re-raised verbatim), authentication via `_unlock_blob0`,
and the try block whose every exception — whatever the failing operation —
is replaced by `DeviceIntegrityException("Device may be compromised")`. -/
def unlock (w : UnlockWorld) : Except UnlockError (String × String × String) :=
  if w.alreadyUnlocked then .error (.alreadyUnlocked "Device already unlocked")
  else
  match w.verify with
  | .error m => .error (.verifyFailed m)
  | .ok _ =>
  match w.auth with
  | none => .error (.invalidCredential "Invalid password")
  | some (_, blob0) =>
    match unlock_post_auth w with
    | .ok (ip, dp) => .ok (blob0, ip, dp)
    | .error _ => .error (.deviceIntegrity "Device may be compromised")

/-- Concrete run of `unlock` in which everything succeeds except the mount of
the `internal` partition, which fails with an ordinary mount-busy message. -/
def unlockWorldMountBusy : UnlockWorld :=
  ⟨false, .ok (), some ("u0", "B0"), .ok "b1", .ok "ch", .ok "h0", .ok "fp",
   .ok "enc", .ok "ipass", .ok (), .error "mount: /internal: device is busy",
   .ok "encd", .ok "dpass", .ok (), .ok ()⟩

/-! ### Ignore predicates and integrity fingerprint -/

/-- Model of `_dummy_ignore(root, relative)` (Live.py:55-66): the file is
ignored exactly when it is `resources/internal-pass.enc` of size below 500
bytes or `resources/blob0.json` of size below 10000 bytes; `sizes` gives each
file's size on the mounted `dummy` partition. -/
def dummy_ignore (sizes : String → Nat) (relative : String) : Bool :=
  if relative = "resources/internal-pass.enc" then sizes relative < 500
  else if relative = "resources/blob0.json" then sizes relative < 10000
  else false

/-- Value returned by `_efi_ignore`: Python returns `True` (ignore the file),
`False` (hash it normally) or a freshly generated random string from
`cgen.generate_password()`, which being truthy makes the walker fold an
unpredictable value into the hash so the chain cannot succeed. `.err` models
the exception `util.load_file_contents` would raise on a missing walked file
(the walker only presents existing files, so it does not occur in practice). -/
inductive EfiIgnoreResult
  | ignoreFile
  | hashFile
  | inject (v : String)
  | err
deriving Repr, DecidableEq

/-- Model of `_efi_ignore(root, relative)` (Live.py:68-84). `fs` maps a path
relative to the EFI mountpoint to its contents (`none` = absent); `gen` is
the random value `cgen.generate_password()` yields on this call. Only
`boot/grub/bootparams.cfg` is treated specially: its contents must equal the
contents of `bootparams0.cfg` or of `bootparams1.cfg` at the partition root;
when either neighbor is missing, or the contents match neither, the freshly
generated random value is returned instead of `True` or `False`. -/
def efi_ignore (gen : String) (fs : String → Option String) (relative : String) :
    EfiIgnoreResult :=
  if relative = "boot/grub/bootparams.cfg" then
    match fs relative with
    | none => .err
    | some contents =>
      match fs "bootparams0.cfg", fs "bootparams1.cfg" with
      | some c0, some c1 =>
          if contents = c0 ∨ contents = c1 then .ignoreFile else .inject gen
      | some _, none => .inject gen
      | none, _ => .inject gen
  else .hashFile

/-- One entry of the integrity log: Python appends single-key dictionaries
such as `{"blob1": hash[:5]}`, modelled as a (label, value) pair. -/
abbrev LogEntry := String × String

/-- Collaborators of `compute_integrity_fingerprint` living outside the
verified sources (Device, FingerprintHash, CryptoGen), kept abstract:
`chain` is `fphash.chain_integity_hash`; `interHash`/`interLog` the result of
`dev.compute_inter_partitions_hash()`; `labelType` the
`dev.get_partitions_layout()["type"]` flag; `tableHash` is
`fphash.compute_partitions_table_hash(dev.devfile, ·)` as a function of that
flag; `dirHashDummy`/`dirHashEFI` are `fphash.compute_directory_hash` on the
mounted `dummy`/`EFI` partitions as functions of the ignore predicate;
`dummySizes`, `efiFs` and `efiGen` feed the two ignore predicates. -/
structure FingerprintEnv where
  chain : String → String → String
  interHash : String
  interLog : List LogEntry
  labelType : String
  tableHash : String → String
  dummySizes : String → Nat
  efiFs : String → Option String
  efiGen : String
  dirHashDummy : (String → Bool) → String
  dirHashEFI : (String → EfiIgnoreResult) → String

/-- Model of `compute_integrity_fingerprint(dev, blob1_priv, live_hash)`
(Live.py:111-156), transcribed statement by statement: hash the
inter-partition data, chain blob1's private key, the partition table for the
device's label type, the `dummy` contents under `_dummy_ignore`, the `EFI`
contents under `_efi_ignore`, and finally the pre-computed `live` hash,
appending the first five characters of the running hash to the log after
each chaining step. The `hashlib.sha256` computed at Live.py:126-127 is dead
code (its digest is never used) and has no observable effect. -/
def compute_integrity_fingerprint (env : FingerprintEnv)
    (blob1_priv live_hash : String) : String × List LogEntry :=
  let interhash := env.interHash
  let log := env.interLog
  let hash := env.chain interhash blob1_priv
  let log := log ++ [("blob1", hash.take 5)]
  let hash := env.chain hash (env.tableHash env.labelType)
  let log := log ++ [("mbr", hash.take 5)]
  let hash := env.chain hash (env.dirHashDummy (dummy_ignore env.dummySizes))
  let log := log ++ [("dummy", hash.take 5)]
  let hash := env.chain hash (env.dirHashEFI (efi_ignore env.efiGen env.efiFs))
  let log := log ++ [("efi-data", hash.take 5)]
  let hash := env.chain hash live_hash
  let log := log ++ [("live", hash.take 5)]
  (hash, log)

/-! ### Image builder: privdata sealing (LiveBuilder.py) -/

/-- One top-level entry of the `privdata.tar` archive as produced by
`tarfile.TarFile.add(res_dir/entry, arcname=entry)`: the archive name plus
the header metadata taken from the filesystem (modification time) and the
entry's contents. Tar serialization is injective on this data — the name and
mtime sit in each entry's header — so two archives are byte-identical iff
their entry lists are equal. -/
structure TarEntry where
  name : String
  mtime : Nat
  contents : String
deriving Repr, DecidableEq

/-- Model of `Builder._encrypt_privdata` (LiveBuilder.py:125-151) up to the
asymmetric encryption of the archive. `listing` is the result of
`os.listdir(res_dir)` — an ordering of the directory's entries which the OS
does not specify and which is not sorted by the code (`none` = the privdata
directory does not exist); `fileData` gives each entry's (mtime, contents);
`pubkey` is the device public key. Returns `.ok none` when no archive is
produced (missing or empty directory), the configuration error when entries
exist but no public key was supplied, and otherwise the archive's top-level
entries exactly in the order in which `tar.add` was called on them, i.e. in
`listing` order. -/
def encrypt_privdata_tar (pubkey : Option String) (listing : Option (List String))
    (fileData : String → Nat × String) : Except String (Option (List TarEntry)) :=
  match listing with
  | none => .ok none
  | some resources =>
    if resources.length = 0 then .ok none
    else
      match pubkey with
      | none => .error
          "Some components specified some PRIVDATA, but no encryption public key has been provided"
      | some _ =>
          .ok (some (resources.map (fun e => ⟨e, (fileData e).1, (fileData e).2⟩)))

/-! ### Helper lemmas -/

theorem declareOverwrite_eq_none (newSalt newEnc name : String) (users : Store)
    (h : ∀ p ∈ users, ¬(p.2.cn = name ∧ p.2.mode = "password")) :
    declareOverwrite newSalt newEnc name users = none := by
  induction users with
  | nil => rfl
  | cons hd tl ih =>
    obtain ⟨u, s⟩ := hd
    have hhd := h (u, s) (List.mem_cons_self _ _)
    have hcond : (s.cn == name && s.mode == "password") = false := by
      by_cases h1 : s.cn = name
      · by_cases h2 : s.mode = "password"
        · exact absurd ⟨h1, h2⟩ hhd
        · simp [h1, h2]
      · simp [h1]
    simp only [declareOverwrite, hcond, if_neg, Bool.false_eq_true, if_false]
    rw [ih (fun p hp => h p (List.mem_cons_of_mem _ hp))]
    rfl

theorem declareOverwrite_first_match (newSalt newEnc name : String)
    (pre post : Store) (u0 : String) (s0 : Slot)
    (hpre : ∀ p ∈ pre, ¬(p.2.cn = name ∧ p.2.mode = "password"))
    (hcn : s0.cn = name) (hmode : s0.mode = "password") :
    declareOverwrite newSalt newEnc name (pre ++ (u0, s0) :: post) =
      some (pre ++ (u0, { s0 with salt := some newSalt, encBlob := newEnc }) :: post) := by
  induction pre with
  | nil =>
    simp only [List.nil_append, declareOverwrite, hcn, hmode]
    simp
  | cons hd tl ih =>
    obtain ⟨u, s⟩ := hd
    have hhd := hpre (u, s) (List.mem_cons_self _ _)
    have hcond : (s.cn == name && s.mode == "password") = false := by
      by_cases h1 : s.cn = name
      · by_cases h2 : s.mode = "password"
        · exact absurd ⟨h1, h2⟩ hhd
        · simp [h1, h2]
      · simp [h1]
    simp only [List.cons_append, declareOverwrite, hcond, Bool.false_eq_true, if_false,
      List.append_eq]
    rw [ih (fun p hp => hpre p (List.mem_cons_of_mem _ hp))]
    rfl

theorem firstDecryptable_eq_none (c : Crypto) (current : String) (users : Store)
    (h : ∀ p ∈ users, tryDecryptSlot c current p.2 = none) :
    firstDecryptable c current users = none := by
  induction users with
  | nil => rfl
  | cons hd tl ih =>
    obtain ⟨u, s⟩ := hd
    have hhd := h (u, s) (List.mem_cons_self _ _)
    simp only [firstDecryptable, hhd]
    exact ih (fun p hp => h p (List.mem_cons_of_mem _ hp))

theorem unlockScan_eq_none (c : Crypto) (pw : String) (users : Store)
    (h : ∀ p ∈ users, tryDecryptSlot c pw p.2 = none) :
    unlockScan c pw users = none := by
  induction users with
  | nil => rfl
  | cons hd tl ih =>
    obtain ⟨u, s⟩ := hd
    have hhd := h (u, s) (List.mem_cons_self _ _)
    simp only [unlockScan, hhd]
    exact ih (fun p hp => h p (List.mem_cons_of_mem _ hp))

/-! ### Claims -/

/-- C1 counterexample: with two slots sharing `cn = "Alice"`, `delete_user`
does not fail (the only guard is `len(users) == 1`, checked before matching),
removes both slots and writes back an empty store — contradicting the claim
that deletion leaving zero slots is always rejected. -/
theorem c1_delete_user_empties_store_cex :
    delete_user (some [("u1", ⟨"password", some "s1", "e1", "Alice"⟩),
                       ("u2", ⟨"password", some "s2", "e2", "Alice"⟩)]) "Alice" =
      .ok [] := by
  rfl

/-- C1 amended: with at least two slots, `delete_user` always succeeds,
removing exactly the slots whose `cn` matches; the result is empty exactly
when every slot matched, so the store can become empty. Rejection happens
only for a store holding exactly one slot. -/
theorem c1_delete_user_amended (users : Store) (name : String)
    (h2 : 2 ≤ users.length) :
    ∃ res, delete_user (some users) name = .ok res ∧
      (res = [] ↔ ∀ p ∈ users, p.2.cn = name) ∧
      ∀ p ∈ res, p.2.cn ≠ name ∧ p ∈ users := by
  have hlen : users.length ≠ 1 := by omega
  refine ⟨users.filter (fun p => p.2.cn != name), ?_, ?_, ?_⟩
  · simp [delete_user, hlen]
  · constructor
    · intro hnil p hp
      by_contra hne
      have : p ∈ users.filter (fun p => p.2.cn != name) := by
        simp only [List.mem_filter]
        exact ⟨hp, by simp [hne]⟩
      rw [hnil] at this
      exact absurd this (List.not_mem_nil p)
    · intro hall
      rw [List.filter_eq_nil_iff]
      intro p hp
      simp [hall p hp]
  · intro p hp
    rw [List.mem_filter] at hp
    refine ⟨?_, hp.1⟩
    have := hp.2
    simpa using this

/-- C1 witness: the amended statement evaluated on a concrete two-slot store
with distinct `cn`s, where deletion keeps the non-matching slot. -/
theorem c1_delete_user_amended_witness :
    ∃ res, delete_user (some [("u1", ⟨"password", some "s1", "e1", "Alice"⟩),
                              ("u2", ⟨"password", some "s2", "e2", "Bob"⟩)]) "Alice" =
        .ok res ∧
      (res = [] ↔ ∀ p ∈ ([("u1", ⟨"password", some "s1", "e1", "Alice"⟩),
                          ("u2", ⟨"password", some "s2", "e2", "Bob"⟩)] : Store),
         p.2.cn = "Alice") ∧
      ∀ p ∈ res, p.2.cn ≠ "Alice" ∧
        p ∈ ([("u1", ⟨"password", some "s1", "e1", "Alice"⟩),
              ("u2", ⟨"password", some "s2", "e2", "Bob"⟩)] : Store) :=
  c1_delete_user_amended _ "Alice" (by decide)

/-- C2 counterexample: after successful authentication, a plain mount failure
of the `internal` partition (message "mount: /internal: device is busy") is
not surfaced verbatim: `unlock` converts it into the opaque
DeviceIntegrityException "Device may be compromised" (Live.py:373-375),
contradicting the claim that such failures are never conflated with the
device-integrity error. -/
theorem c2_mount_failure_conflated_cex :
    unlockWorldMountBusy.mountInternal = .error "mount: /internal: device is busy" ∧
    unlock unlockWorldMountBusy = .error (.deviceIntegrity "Device may be compromised") :=
  ⟨rfl, rfl⟩

/-- C2 amended: every failure inside the try block following authentication —
integrity-chain steps, mounting `internal` or `data`, reading or decrypting
`data-pass.enc` — is converted into the single opaque
DeviceIntegrityException "Device may be compromised"; the underlying message
only goes to syslog. Mount and filesystem failures after authentication are
therefore conflated with integrity failures, not surfaced verbatim. -/
theorem c2_post_auth_failures_become_integrity (w : UnlockWorld) (m : String)
    (h1 : w.alreadyUnlocked = false) (h2 : w.verify = .ok ())
    (h3 : ∃ ub, w.auth = some ub)
    (h4 : unlock_post_auth w = .error m) :
    unlock w = .error (.deviceIntegrity "Device may be compromised") := by
  obtain ⟨⟨u, b⟩, hauth⟩ := h3
  simp only [unlock, h1, h2, hauth, h4, Bool.false_eq_true, if_false]

/-- C2 witness: the amended statement evaluated on the concrete mount-busy
world. -/
theorem c2_post_auth_failures_become_integrity_witness :
    unlock unlockWorldMountBusy = .error (.deviceIntegrity "Device may be compromised") :=
  c2_post_auth_failures_become_integrity unlockWorldMountBusy
    "mount: /internal: device is busy" rfl rfl ⟨("u0", "B0"), rfl⟩ rfl

/-- C3: the fingerprint is the left fold of the chain hash, seeded with the
inter-partition hash, over exactly the list [blob1 private key, partition
table hash for the label-type flag, `dummy` directory hash under its ignore
predicate, `EFI` directory hash under its ignore predicate, pre-computed
`live` hash] in that order; and the log extends the inter-partition log with
exactly the five labelled entries "blob1", "mbr", "dummy", "efi-data",
"live", each holding the first five characters of the running hash right
after the corresponding step (the tail of the scan of the same fold). -/
theorem c3_fingerprint_chain_order (env : FingerprintEnv)
    (blob1_priv live_hash : String) :
    compute_integrity_fingerprint env blob1_priv live_hash =
      (([blob1_priv, env.tableHash env.labelType,
          env.dirHashDummy (dummy_ignore env.dummySizes),
          env.dirHashEFI (efi_ignore env.efiGen env.efiFs),
          live_hash].foldl env.chain env.interHash),
       env.interLog ++
         List.zip ["blob1", "mbr", "dummy", "efi-data", "live"]
           ((([blob1_priv, env.tableHash env.labelType,
               env.dirHashDummy (dummy_ignore env.dummySizes),
               env.dirHashEFI (efi_ignore env.efiGen env.efiFs),
               live_hash].scanl env.chain env.interHash).tail).map
             (fun h => h.take 5))) := by
  simp [compute_integrity_fingerprint, List.scanl, List.append_assoc]

/-- C4: the EFI ignore predicate answers `True` on `boot/grub/bootparams.cfg`
exactly when both neighbor files exist and the file's contents equal one of
them (first conjunct); when a neighbor is missing (second and third
conjuncts) or the contents match neither neighbor (fourth conjunct), it
returns the freshly generated random value, never an ignore or a skip. -/
theorem c4_efi_ignore_spec (gen : String) (fs : String → Option String) :
    (efi_ignore gen fs "boot/grub/bootparams.cfg" = .ignoreFile ↔
      ∃ c c0 c1, fs "boot/grub/bootparams.cfg" = some c ∧
        fs "bootparams0.cfg" = some c0 ∧ fs "bootparams1.cfg" = some c1 ∧
        (c = c0 ∨ c = c1))
  ∧ (∀ c, fs "boot/grub/bootparams.cfg" = some c → fs "bootparams0.cfg" = none →
      efi_ignore gen fs "boot/grub/bootparams.cfg" = .inject gen)
  ∧ (∀ c, fs "boot/grub/bootparams.cfg" = some c → fs "bootparams1.cfg" = none →
      efi_ignore gen fs "boot/grub/bootparams.cfg" = .inject gen)
  ∧ (∀ c c0 c1, fs "boot/grub/bootparams.cfg" = some c →
      fs "bootparams0.cfg" = some c0 → fs "bootparams1.cfg" = some c1 →
      c ≠ c0 → c ≠ c1 →
      efi_ignore gen fs "boot/grub/bootparams.cfg" = .inject gen) := by
  refine ⟨?_, ?_, ?_, ?_⟩
  · constructor
    · intro h
      rcases hc : fs "boot/grub/bootparams.cfg" with _ | c
      · simp [efi_ignore, hc] at h
      rcases h0 : fs "bootparams0.cfg" with _ | c0
      · simp [efi_ignore, hc, h0] at h
      rcases h1 : fs "bootparams1.cfg" with _ | c1
      · simp [efi_ignore, hc, h0, h1] at h
      by_cases heq : c = c0 ∨ c = c1
      · exact ⟨c, c0, c1, rfl, rfl, rfl, heq⟩
      · simp [efi_ignore, hc, h0, h1, heq] at h
    · rintro ⟨c, c0, c1, hc, h0, h1, heq⟩
      simp [efi_ignore, hc, h0, h1, heq]
  · intro c hc h0
    simp [efi_ignore, hc, h0]
  · intro c hc h1
    rcases h0 : fs "bootparams0.cfg" with _ | c0
    · simp [efi_ignore, hc, h0, h1]
    · simp [efi_ignore, hc, h0, h1]
  · intro c c0 c1 hc h0 h1 hne0 hne1
    have hor : ¬(c = c0 ∨ c = c1) := by
      rintro (h | h)
      · exact hne0 h
      · exact hne1 h
    simp [efi_ignore, hc, h0, h1, hor]

/-- C4 witness: a concrete EFI tree where `bootparams.cfg` holds a third
distinct content and both neighbors exist: the predicate injects the fresh
random value, and the ignore answer is equivalent to the (false) neighbor
equality. -/
theorem c4_efi_ignore_spec_witness :
    efi_ignore "RANDOM" (fun p =>
        if p = "boot/grub/bootparams.cfg" then some "evil"
        else if p = "bootparams0.cfg" then some "good0"
        else if p = "bootparams1.cfg" then some "good1"
        else none) "boot/grub/bootparams.cfg" = .inject "RANDOM" :=
  (c4_efi_ignore_spec "RANDOM" _).2.2.2 "evil" "good0" "good1" rfl rfl rfl
    (by decide) (by decide)

/-- C5 counterexample: two builds from identical component inputs — the same
privdata entries "comp-a" and "comp-b" with the same metadata and contents —
whose directory listings come back in different (both legitimate) orders
produce different archives, so `privdata.tar` is not byte-identical across
such builds; moreover in the first build the entries stand in the order
["comp-b", "comp-a"], which is not lexicographic since "comp-a" < "comp-b". -/
theorem c5_privdata_tar_not_deterministic_cex :
    encrypt_privdata_tar (some "PK") (some ["comp-b", "comp-a"]) (fun _ => (7, "x")) =
      .ok (some [⟨"comp-b", 7, "x"⟩, ⟨"comp-a", 7, "x"⟩])
  ∧ encrypt_privdata_tar (some "PK") (some ["comp-b", "comp-a"]) (fun _ => (7, "x")) ≠
      encrypt_privdata_tar (some "PK") (some ["comp-a", "comp-b"]) (fun _ => (7, "x"))
  ∧ "comp-a" < "comp-b" := by
  refine ⟨rfl, ?_, ?_⟩
  · intro h
    have h2 : (some [TarEntry.mk "comp-b" 7 "x", TarEntry.mk "comp-a" 7 "x"]) =
        (some [TarEntry.mk "comp-a" 7 "x", TarEntry.mk "comp-b" 7 "x"]) := by
      exact Except.ok.inj h
    simp at h2
  · rw [String.lt_iff_toList_lt]
    decide

/-- C5 amended: the pre-encryption `privdata.tar` contains the top-level
privdata entries exactly in the order returned by `os.listdir` — an order the
code does not sort, so it need not be lexicographic — with header metadata
read from the filesystem; consequently two builds from identical component
inputs produce byte-identical archives only when their directory listings
agree in order and the entry metadata (such as mtimes) coincides, in which
case the archive is a deterministic function of those. -/
theorem c5_privdata_tar_listing_order (pubkey : String) (listing : List String)
    (fileData : String → Nat × String) (h : listing ≠ []) :
    encrypt_privdata_tar (some pubkey) (some listing) fileData =
      .ok (some (listing.map (fun e => ⟨e, (fileData e).1, (fileData e).2⟩)))
  ∧ (listing.map (fun e => TarEntry.mk e (fileData e).1 (fileData e).2)).map TarEntry.name =
      listing := by
  constructor
  · have hlen : listing.length ≠ 0 := by
      intro hl
      exact h (List.length_eq_zero.mp hl)
    simp [encrypt_privdata_tar, hlen]
  · have hcomp : (TarEntry.name ∘ fun e => TarEntry.mk e (fileData e).1 (fileData e).2) = id := rfl
    rw [List.map_map, hcomp, List.map_id]

/-- C5 witness: the amended statement evaluated on the unsorted listing
["comp-b", "comp-a"]. -/
theorem c5_privdata_tar_listing_order_witness :
    encrypt_privdata_tar (some "PK") (some ["comp-b", "comp-a"]) (fun _ => (7, "x")) =
      .ok (some (["comp-b", "comp-a"].map (fun e => ⟨e, 7, "x"⟩)))
  ∧ ((["comp-b", "comp-a"].map
        (fun e => TarEntry.mk e ((fun _ => ((7 : Nat), "x")) e).1
          ((fun _ => ((7 : Nat), "x")) e).2)).map TarEntry.name =
      ["comp-b", "comp-a"]) :=
  c5_privdata_tar_listing_order "PK" ["comp-b", "comp-a"] (fun _ => (7, "x")) (by decide)

/-- C6: when the supplied password decrypts no slot — the hardened-with-salt
attempt and the legacy plain attempt both fail on every slot — `_unlock_blob0`
raises the invalid-credential error, no uuid is recorded, and starting from a
state with no partition mounted the final state has none either: `dummy` was
mounted, then unmounted before the raise, and no partition beyond `dummy` was
ever mounted. -/
theorem c6_unlock_blob0_wrong_password (c : Crypto) (users : Store) (pw : String)
    (h : ∀ p ∈ users, tryDecryptSlot c pw p.2 = none) :
    unlock_blob0 c users pw [] = ⟨.error "Invalid password", [], none⟩ := by
  simp only [unlock_blob0, unlockScan_eq_none c pw users h]
  rfl

/-- C6 witness: a concrete store whose single slot decrypts under nothing
yields the invalid-credential outcome with every partition unmounted. -/
theorem c6_unlock_blob0_wrong_password_witness :
    unlock_blob0 ⟨fun p s => p ++ s, fun k b => k ++ b, fun _ _ => none⟩
      [("u0", ⟨"password", some "s0", "e0", "Alice"⟩)] "wrong" [] =
      ⟨.error "Invalid password", [], none⟩ :=
  c6_unlock_blob0_wrong_password _ _ "wrong" (by intro p hp; rfl)

/-- C7: behaviour of `declare_user`. First conjunct: when no slot has both a
matching `cn` and `mode = "password"` (in particular when the file is
present but the name is new), a fresh slot keyed by the fresh uuid is
appended, encrypted under the fresh salt and hardened key. Second conjunct:
when the store splits around a first matching slot, exactly that slot's
`enc-blob` and `salt` are overwritten, its uuid key, `cn` and `mode` are
preserved and all other slots are untouched. Third conjunct: starting from a
store with no slot named `name`, declaring `name` twice leaves exactly one
slot whose `cn` is `name`, keyed by the uuid drawn at the first declaration. -/
theorem c7_declare_user_spec (c : Crypto) (s1 u1 s2 u2 : String) (users : Store)
    (name pw1 pw2 blob0 : String) :
    ((∀ p ∈ users, ¬(p.2.cn = name ∧ p.2.mode = "password")) →
      declare_user c s1 u1 (some users) name pw1 blob0 =
        users ++ [(u1, ⟨"password", some s1, c.encrypt (c.harden pw1 s1) blob0, name⟩)])
  ∧ (∀ pre post (u0 : String) (sl0 : Slot),
      users = pre ++ (u0, sl0) :: post →
      (∀ p ∈ pre, ¬(p.2.cn = name ∧ p.2.mode = "password")) →
      sl0.cn = name → sl0.mode = "password" →
      declare_user c s1 u1 (some users) name pw1 blob0 =
        pre ++
          (u0, { sl0 with salt := some s1, encBlob := c.encrypt (c.harden pw1 s1) blob0 }) ::
          post)
  ∧ ((∀ p ∈ users, p.2.cn ≠ name) →
      (declare_user c s2 u2
          (some (declare_user c s1 u1 (some users) name pw1 blob0)) name pw2 blob0).filter
          (fun p => p.2.cn == name) =
        [(u1, ⟨"password", some s2, c.encrypt (c.harden pw2 s2) blob0, name⟩)]) := by
  refine ⟨?_, ?_, ?_⟩
  · intro h
    simp only [declare_user, declareOverwrite_eq_none _ _ _ _ h]
  · intro pre post u0 sl0 hsplit hpre hcn hmode
    subst hsplit
    simp only [declare_user, declareOverwrite_first_match _ _ _ _ _ _ _ hpre hcn hmode]
  · intro h
    have hnom : ∀ p ∈ users, ¬(p.2.cn = name ∧ p.2.mode = "password") := by
      intro p hp hand
      exact h p hp hand.1
    have h1 : declare_user c s1 u1 (some users) name pw1 blob0 =
        users ++ [(u1, ⟨"password", some s1, c.encrypt (c.harden pw1 s1) blob0, name⟩)] := by
      simp only [declare_user, declareOverwrite_eq_none _ _ _ _ hnom]
    have h2 : declare_user c s2 u2
        (some (users ++ [(u1, ⟨"password", some s1, c.encrypt (c.harden pw1 s1) blob0, name⟩)]))
        name pw2 blob0 =
        users ++ [(u1, ⟨"password", some s2, c.encrypt (c.harden pw2 s2) blob0, name⟩)] := by
      have := declareOverwrite_first_match s2 (c.encrypt (c.harden pw2 s2) blob0) name
        users ([] : Store) u1 ⟨"password", some s1, c.encrypt (c.harden pw1 s1) blob0, name⟩
        hnom rfl rfl
      simp only [declare_user, this]
    rw [h1, h2, List.filter_append]
    have hempty : users.filter (fun p => p.2.cn == name) = [] := by
      rw [List.filter_eq_nil_iff]
      intro p hp
      simp [h p hp]
    rw [hempty]
    simp

/-- C7 witness: on a store holding one slot for "Bob", declaring "Alice"
twice (fresh salts "s1"/"s2", fresh uuids "u1"/"u2") leaves exactly one slot
whose `cn` is "Alice", keyed by "u1" and re-encrypted under salt "s2". -/
theorem c7_declare_user_spec_witness :
    (declare_user ⟨fun p s => p ++ s, fun k b => k ++ b, fun _ _ => none⟩ "s2" "u2"
        (some (declare_user ⟨fun p s => p ++ s, fun k b => k ++ b, fun _ _ => none⟩ "s1" "u1"
          (some [("u0", ⟨"password", none, "e0", "Bob"⟩)]) "Alice" "pw1" "B0"))
        "Alice" "pw2" "B0").filter (fun p => p.2.cn == "Alice") =
      [("u1", ⟨"password", some "s2", "pw2s2B0", "Alice"⟩)] := by
  have h := (c7_declare_user_spec ⟨fun p s => p ++ s, fun k b => k ++ b, fun _ _ => none⟩
    "s1" "u1" "s2" "u2" [("u0", ⟨"password", none, "e0", "Bob"⟩)]
    "Alice" "pw1" "pw2" "B0").2.2 (by decide)
  exact h

/-- C8: behaviour of `change_user_password` when the two passwords differ.
First conjunct: when no slot's enc-blob decrypts under the current password
(hardened-with-salt path and legacy plain path both fail on every slot), the
call fails with the invalid-credential error. Second conjunct: when the scan
finds a first decrypting slot, the call returns the store produced by
`declare_user` for that slot's `cn` with the new password and the decrypted
blob0. Third and fourth conjuncts: each slot is tried with the
hardened-with-salt key first — using the stored salt or the legacy sentinel
when absent — and only on its failure with the legacy plain password. -/
theorem c8_change_user_password_spec (c : Crypto) (freshSalt freshUuid : String)
    (users : Store) (current new : String) (hne : current ≠ new) :
    ((∀ p ∈ users, tryDecryptSlot c current p.2 = none) →
      change_user_password c freshSalt freshUuid (some users) current new =
        .error "Invalid password")
  ∧ (∀ (s : Slot) (b : String), firstDecryptable c current users = some (s, b) →
      change_user_password c freshSalt freshUuid (some users) current new =
        .ok (some (declare_user c freshSalt freshUuid (some users) s.cn new b)))
  ∧ (∀ (s : Slot) (b : String),
      c.decrypt (c.harden current (s.salt.getD legacySalt)) s.encBlob = some b →
      tryDecryptSlot c current s = some b)
  ∧ (∀ s : Slot,
      c.decrypt (c.harden current (s.salt.getD legacySalt)) s.encBlob = none →
      tryDecryptSlot c current s = c.decrypt current s.encBlob) := by
  refine ⟨?_, ?_, ?_, ?_⟩
  · intro h
    simp only [change_user_password, if_neg hne, firstDecryptable_eq_none c current users h]
  · intro s b hfd
    simp only [change_user_password, if_neg hne, hfd]
  · intro s b hdec
    simp only [tryDecryptSlot, hdec]
  · intro s hdec
    simp only [tryDecryptSlot, hdec]

/-- C8 witness: with crypto primitives under which nothing decrypts, changing
the password of a one-slot store fails with the invalid-credential error. -/
theorem c8_change_user_password_spec_witness :
    change_user_password ⟨fun p s => p ++ s, fun k b => k ++ b, fun _ _ => none⟩ "fs" "fu"
      (some [("u0", ⟨"password", some "s0", "e0", "Alice"⟩)]) "cur" "new" =
      .error "Invalid password" := by
  have h := (c8_change_user_password_spec
    ⟨fun p s => p ++ s, fun k b => k ++ b, fun _ _ => none⟩ "fs" "fu"
    [("u0", ⟨"password", some "s0", "e0", "Alice"⟩)] "cur" "new" (by decide)).1
  exact h (by intro p hp; rfl)

/-- C9: when the current and new passwords coincide, `change_user_password`
returns successfully at once (Live.py:1272-1273): the store is left exactly as
it was, the `blob0.json` file is not even required to exist (`store = none`
also succeeds), and no decryption is attempted (the result holds for every
choice of crypto primitives, hence for passwords valid for no user). -/
theorem c9_change_password_same_is_noop (c : Crypto) (freshSalt freshUuid : String)
    (store : Option Store) (p : String) :
    change_user_password c freshSalt freshUuid store p p = .ok store := by
  simp [change_user_password]

/-- C10: whenever `blob0.json` holds exactly one slot, `delete_user` raises
the only-one-user error whatever the supplied name — the slot count is
checked before any name matching, so the error is independent of whether the
name matches the remaining slot. -/
theorem c10_delete_user_single_slot (users : Store) (name : String)
    (h : users.length = 1) :
    delete_user (some users) name =
      .error "Can't remove user when there is only one" := by
  simp [delete_user, h]

/-- C10 witness: a one-slot store rejects deletion of a name that matches no
slot at all. -/
theorem c10_delete_user_single_slot_witness :
    delete_user (some [("u1", ⟨"password", some "s1", "e1", "Alice"⟩)]) "Nobody" =
      .error "Can't remove user when there is only one" :=
  c10_delete_user_single_slot _ "Nobody" (by decide)

end Inseca
